import Mathlib

/-!
# unixgotools: a shallow embedding of `filemgr` and `editor`

Go strings are modelled as Lean `String`s (sequences of Unicode scalar values),
Go `error` values as `GoError`, and the outside world (subprocesses, the
temporary-file directory, the terminal) as explicit oracles and explicit state.
The mutex of `filemgr` only serialises accesses; every function is modelled as
one atomic step on the state.
-/

/-! ## Fragments of the Go standard library used by the two packages -/

/-- Go `error` values that can reach the two packages. -/
inductive GoError where
  /-- `*exec.ExitError`: the subprocess ran and exited with a non-zero status. -/
  | exit (code : Nat)
  /-- `*exec.ExitError`: the subprocess ran and was terminated by a signal. -/
  | signaled (sig : String)
  /-- Any error reported by the operating system or a library (`*os.PathError`, ...). -/
  | sys (msg : String)
  /-- The value built by `fmt.Errorf` without a wrapping verb. -/
  | errorString (msg : String)
  deriving DecidableEq, Repr

/-- Method `Error()` of a Go `error`. -/
def GoError.Error : GoError → String
  | .exit code => "exit status " ++ toString code
  | .signaled sig => "signal: " ++ sig
  | .sys msg => msg
  | .errorString msg => msg

/-- Call `fmt.Errorf("%s: %s", text, err)`. -/
def Errorf (text : String) (err : GoError) : GoError :=
  .errorString (text ++ ": " ++ err.Error)

/-- Result of `(*exec.Cmd).Wait` for a started process that terminated with the
given exit status: `nil` for status 0, an `*exec.ExitError` otherwise. -/
def Wait (exitCode : Nat) : Option GoError :=
  if exitCode = 0 then none else some (.exit exitCode)

/-- Go `unicode.IsSpace`: the Latin-1 spaces and the code points with the
Unicode White_Space property. -/
def IsSpace (r : Char) : Bool :=
  let n := r.toNat
  n = 0x09 || n = 0x0A || n = 0x0B || n = 0x0C || n = 0x0D || n = 0x20 ||
  n = 0x85 || n = 0xA0 || n = 0x1680 || (0x2000 ≤ n && n ≤ 0x200A) ||
  n = 0x2028 || n = 0x2029 || n = 0x202F || n = 0x205F || n = 0x3000

/-- Go `strings.TrimSpace`: drop leading and trailing white space. -/
def TrimSpace (s : String) : String :=
  ⟨((s.data.dropWhile IsSpace).reverse.dropWhile IsSpace).reverse⟩

/-- The temporary-file directory: the contents of every existing path. -/
abbrev FS := String → Option String

/-- File system with `path` holding `data`. -/
def FS.write (fs : FS) (path data : String) : FS :=
  fun p => if p = path then some data else fs p

/-- File system without `path`. -/
def FS.remove (fs : FS) (path : String) : FS :=
  fun p => if p = path then none else fs p

/-- What the operating system does to one `ioutil.WriteFile` call. -/
inductive WriteResult where
  /-- The file is opened (created or truncated), written and closed. -/
  | ok
  /-- `OpenFile` fails: nothing is created or changed. -/
  | openFails (err : GoError)
  /-- The file is opened (created or truncated) but `Write` or `Close` fails
  after `written` characters reached the file. -/
  | writeFails (err : GoError) (written : Nat)

/-- Go `ioutil.WriteFile(path, data, perm)`: `OpenFile` with
`O_WRONLY|O_CREATE|O_TRUNC`, then `Write`, then `Close`. -/
def ioutil.WriteFile (os : WriteResult) (path data : String) (fs : FS) : Option GoError × FS :=
  match os with
  | .ok => (none, fs.write path data)
  | .openFails err => (some err, fs)
  | .writeFails err written => (some err, fs.write path ⟨data.data.take written⟩)

/-- Go `ioutil.ReadFile(path)`; `os` is an error injected by the operating system. -/
def ioutil.ReadFile (os : Option GoError) (path : String) (fs : FS) : Except GoError String :=
  match os with
  | some err => .error err
  | none =>
    match fs path with
    | some data => .ok data
    | none => .error (.sys ("open " ++ path ++ ": no such file or directory"))

namespace filemgr

/-- Behaviour of one `sh` subprocess as seen through `os/exec`: the errors (if
any) of the pipe set-up calls and of `Start`, and what the process does when
none of its writes is blocked for ever: what it writes, and how it terminates.
The process keeps its output streams open until it terminates. -/
structure ShRun where
  stderrPipe : Option GoError := none
  stdoutPipe : Option GoError := none
  stdinPipe : Option GoError := none
  start : Option GoError := none
  stdout : String := ""
  stderr : String := ""
  /-- Standard output and standard error as interleaved in one buffer. -/
  combined : String := ""
  /-- Exit status, for a process that exits by itself. -/
  exitCode : Nat := 0
  /-- The signal that terminates the process, if one does. -/
  signal : Option String := none

/-- Number of bytes a pipe holds before a write to it blocks (the Linux default). -/
def pipeBuffer : Nat := 65536

/-- Result of `(*exec.Cmd).Wait` for a started process that terminated. -/
def ShRun.wait (cmd : ShRun) : Option GoError :=
  match cmd.signal with
  | some sig => some (.signaled sig)
  | none => Wait cmd.exitCode

/-- The outside world of `filemgr`: what the command with the given argument
vector does when fed the given standard input. -/
abbrev Shell := List String → String → ShRun

/-- Package-level variables of `filemgr`, together with the record of the
command lines handed to `Start`. -/
structure Store where
  writeCmd : String
  readCmd : String
  execs : List (List String) := []

def writeDefault : String :=
  "gpg --yes --encrypt --recipient $(gpg --list-secret-keys --with-colons | head -1 | cut -d: -f5) -o"

def readDefault : String := "gpg -d -q"

/-- Values of the package-level variables before `init` runs. -/
def initial : Store := { writeCmd := writeDefault, readCmd := readDefault }

def SetWriteCmd (cmd : String) (s : Store) : Store :=
  if TrimSpace cmd ≠ "" ∧ s.writeCmd = writeDefault then { s with writeCmd := cmd } else s

def SetReadCmd (cmd : String) (s : Store) : Store :=
  if TrimSpace cmd ≠ "" ∧ s.readCmd = readDefault then { s with readCmd := cmd } else s

/-- Package initialiser; `getenv` is `os.Getenv` (the empty string for an unset variable). -/
def init (getenv : String → String) (s : Store) : Store :=
  SetReadCmd (getenv "FILE_READER_CMD") (SetWriteCmd (getenv "FILE_WRITER_CMD") s)

/-- The first component is what the call returns, `none` when it never returns. -/
def ReadFile (sh : Shell) (path : String) (s : Store) :
    Option (String × Option GoError) × Store :=
  let cmdArgs := ["-c", s.readCmd ++ " " ++ path]
  let cmd := sh ("sh" :: cmdArgs) ""
  match cmd.stderrPipe with
  | some err => (some ("", some err), s)
  | none =>
    match cmd.stdoutPipe with
    | some err => (some ("", some err), s)
    | none =>
      let s1 := { s with execs := s.execs ++ ["sh" :: cmdArgs] }
      match cmd.start with
      | some err => (some ("", some err), s1)
      | none =>
        -- `ioutil.ReadAll(stderr)` returns at the end of standard error, which comes
        -- when the process terminates; nothing reads standard output before that, so
        -- a process with more output than the pipe holds blocks in its write and,
        -- unless a signal terminates it, neither it nor the call gets any further
        if cmd.signal = none ∧ pipeBuffer < cmd.stdout.utf8ByteSize then (none, s1)
        else
          let errout := cmd.stderr
          let out := cmd.stdout
          match cmd.wait with
          | some err => (some ("", some (Errorf errout err)), s1)
          | none => (some (out, none), s1)

/-- Method `CombinedOutput` of `exec.Cmd`: `Start` then `Wait`, both streams
copied into one buffer while the process runs. -/
def CombinedOutput (cmd : ShRun) : String × Option GoError :=
  match cmd.start with
  | some err => ("", some err)
  | none => (cmd.combined, cmd.wait)

def WriteFile (sh : Shell) (path content : String) (s : Store) : Option GoError × Store :=
  let cmdArgs := ["-c", s.writeCmd ++ " " ++ path]
  let cmd := sh ("sh" :: cmdArgs) content
  match cmd.stdinPipe with
  | some err => (some err, s)
  | none =>
    let s1 := { s with execs := s.execs ++ ["sh" :: cmdArgs] }
    match CombinedOutput cmd with
    | (out, some err) => (some (Errorf out err), s1)
    | (_, none) => (none, s1)

/-- Calls a client can make on the package. -/
inductive Op where
  | SetReadCmd (cmd : String)
  | SetWriteCmd (cmd : String)
  | ReadFile (path : String)
  | WriteFile (path content : String)

/-- One call; the value returned to the caller is dropped, the state is kept. -/
def step (sh : Shell) (s : Store) : Op → Store
  | .SetReadCmd cmd => SetReadCmd cmd s
  | .SetWriteCmd cmd => SetWriteCmd cmd s
  | .ReadFile path => (ReadFile sh path s).2
  | .WriteFile path content => (WriteFile sh path content s).2

/-- A finite sequence of calls, oldest first. -/
def run (sh : Shell) (s : Store) (ops : List Op) : Store :=
  ops.foldl (step sh) s

/-- A shell whose every command prints a complaint and exits with status 2. -/
def failingShell : Shell :=
  fun _ _ => { stderr := "gpg: decryption failed", combined := "gpg: no such key", exitCode := 2 }

/-- A shell whose every command echoes its standard input and exits with status 0. -/
def catShell : Shell :=
  fun _ stdin => { stdout := stdin, combined := stdin }

/-- A shell whose every command prints a short note and exits with status 0. -/
def noteShell : Shell :=
  fun _ _ => { stdout := "remember the milk\n", combined := "remember the milk\n" }

/-- A shell whose every command is killed while running. -/
def killedShell : Shell :=
  fun _ _ =>
    { stderr := "gpg: interrupted", combined := "gpg: interrupted", signal := some "killed" }

/-- Content of a file of 65537 bytes. -/
def bigContent : String := ⟨List.replicate 65537 (Char.ofNat 120)⟩

/-- A shell in which `cat big.txt` prints the 65537 bytes of that file on
standard output and exits with status 0, and every other command prints nothing. -/
def bigFileShell : Shell :=
  fun argv _ =>
    if argv = ["sh", "-c", "cat big.txt"] then { stdout := bigContent, combined := bigContent }
    else {}

/-- The environment variables of a process started with `FILE_READER_CMD="cat"`. -/
def catReaderEnv (name : String) : String :=
  if name = "FILE_READER_CMD" then "cat" else ""

end filemgr

namespace editor

/-- What one editor subprocess does: the error of `Start` (if any), the exit
status, and the file system it leaves behind. The process is assumed to
terminate. -/
structure ProcResult where
  start : Option GoError := none
  exitCode : Nat := 0
  fs : FS

/-- Record of one subprocess: its argument vector, the file system it was
started on and what it did. -/
structure Launch where
  argv : List String
  fs : FS
  result : ProcResult

/-- The outside world of `editor`, as a schedule: what the environment answers
during the call of `Edit` number `n` (counted from 0). -/
structure Env where
  /-- `os.Getenv`; the empty string for an unset variable. -/
  getenv : String → String
  /-- The random UUID drawn by call `n`, as text; drawing one is taken to succeed. -/
  uuid : Nat → String
  /-- Fate of the `ioutil.WriteFile` of call `n`. -/
  writeFile : Nat → WriteResult
  /-- Behaviour of the subprocess of call `n`, given its argument vector and the
  file system it starts on. -/
  proc : Nat → List String → FS → ProcResult
  /-- Error injected into the `ioutil.ReadFile` of call `n`. -/
  readFile : Nat → Option GoError

/-- State the package acts on. -/
structure World where
  fs : FS
  /-- Number of calls of `Edit` started so far. -/
  clock : Nat := 0
  /-- Subprocesses run so far, oldest first. -/
  launches : List Launch := []
  /-- Texts printed on standard output so far, oldest first. -/
  stdout : List String := []
  /-- Lines consumed from standard input so far. -/
  acks : Nat := 0

/-- Method `Run` of `exec.Cmd` (`Start` then `Wait`) for the command `argv`
with standard input and output attached to the terminal. A process that fails
to start leaves the file system alone. -/
def Run (os : List String → FS → ProcResult) (argv : List String) (w : World) :
    Option GoError × World :=
  let r := os argv w.fs
  let w1 := { w with launches := w.launches ++ [{ argv := argv, fs := w.fs, result := r }] }
  match r.start with
  | some err => (some err, w1)
  | none => (Wait r.exitCode, { w1 with fs := r.fs })

/-- Go `os.Remove(path)`; the caller drops its result. -/
def Remove (path : String) (w : World) : World :=
  { w with fs := w.fs.remove path }

/-- Name of the temporary file of call `n`. -/
def filename (env : Env) (n : Nat) : String :=
  "/tmp/tmpeditor" ++ env.uuid n

/-- Editor program: `$EDITOR`, or `vi` when that is empty. -/
def editorvar (env : Env) : String :=
  if env.getenv "EDITOR" = "" then "vi" else env.getenv "EDITOR"

def Edit (env : Env) (content : String) (w0 : World) : (String × Option GoError) × World :=
  let n := w0.clock
  let w := { w0 with clock := n + 1 }
  let filename := filename env n
  match ioutil.WriteFile (env.writeFile n) filename content w.fs with
  | (some err, fs) => (("", some err), { w with fs := fs })
  | (none, fs) =>
    -- `defer os.Remove(filename)` is registered here: it runs at every return below
    let w := { w with fs := fs }
    let editorcmd := [editorvar env, filename]
    match Run (env.proc n) editorcmd w with
    | (some err, w) => (("", some err), Remove filename w)
    | (none, w) =>
      match ioutil.ReadFile (env.readFile n) filename w.fs with
      | .error err => (("", some err), Remove filename w)
      | .ok edited => ((edited, none), Remove filename w)

/-- The part of `encoding/json` the package calls. `Unmarshal` stores into the
target it is given and may have changed it even when it reports an error. -/
structure Json (α τ : Type) where
  MarshalIndent : α → String → String → Except GoError String
  Unmarshal : String → τ → τ × Option GoError

/-- Text of `fmt.Printf("failed to unmarshal edited content: %s.\nPress enter to edit", err)`. -/
def diagnostic (err : GoError) : String :=
  "failed to unmarshal edited content: " ++ err.Error ++ ".\nPress enter to edit"

def Printf (text : String) (w : World) : World :=
  { w with stdout := w.stdout ++ [text] }

/-- Call `bufio.NewReader(os.Stdin).ReadBytes(10)`: one line of standard input is consumed. -/
def ReadBytes (w : World) : World :=
  { w with acks := w.acks + 1 }

/-- Where a run of `EditJSONTarget` stands. -/
inductive Outcome (τ : Type) where
  /-- The function returned `err`, leaving `target` and the world `w`. -/
  | returned (err : Option GoError) (target : τ) (w : World)
  /-- The loop is about to start another round with buffer `j`. -/
  | running (j : String) (target : τ) (w : World)

def Outcome.world {τ : Type} : Outcome τ → World
  | .returned _ _ w => w
  | .running _ _ w => w

/-- The `for !correctContent` loop of `EditJSONTarget`, run for at most `fuel` rounds. -/
def loop {α τ : Type} (env : Env) (json : Json α τ) :
    Nat → String → τ → World → Outcome τ
  | 0, j, target, w => .running j target w
  | fuel + 1, j, target, w =>
    match Edit env j w with
    | ((_, some err), w) => .returned (some err) target w
    | ((edited, none), w) =>
      match json.Unmarshal edited target with
      | (target, none) => .returned none target w
      | (target, some err) =>
        loop env json fuel edited target (ReadBytes (Printf (diagnostic err) w))

def EditJSONTarget {α τ : Type} (env : Env) (json : Json α τ) (fuel : Nat)
    (i : α) (target : τ) (w : World) : Outcome τ :=
  match json.MarshalIndent i "" "    " with
  | .error err => .returned (some err) target w
  | .ok j => loop env json fuel j target w

def EditJSON {α : Type} (env : Env) (json : Json α α) (fuel : Nat) (i : α) (w : World) :
    Outcome α :=
  EditJSONTarget env json fuel i i w

/-- An environment in which the temporary directory is full: the file of every
call is created, then the write fails before any character is stored. -/
def fullDisk : Env where
  getenv := fun _ => ""
  uuid := fun _ => "6ba7b810-9dad-11d1-80b4-00c04fd430c8"
  writeFile := fun _ => .writeFails (.sys "write: no space left on device") 0
  proc := fun _ _ fs => { fs := fs }
  readFile := fun _ => none

/-- Content the subprocess finds in the file named by its first argument. -/
def handed (l : Launch) : Option String :=
  l.fs (l.argv.getD 1 "")

/-- Content the subprocess leaves in the file named by its first argument. -/
def returned (l : Launch) : Option String :=
  l.result.fs (l.argv.getD 1 "")

/-- During call `n` of `Edit` nothing fails and the editor leaves `text` in the
temporary file: the write and the read succeed, the editor starts and exits
with status 0. -/
def EditorReturns (env : Env) (n : Nat) (text : String) : Prop :=
  env.writeFile n = .ok ∧ env.readFile n = none ∧
    ∀ fs : FS,
      (env.proc n [editorvar env, filename env n] fs).start = none ∧
      (env.proc n [editorvar env, filename env n] fs).exitCode = 0 ∧
      (env.proc n [editorvar env, filename env n] fs).fs (filename env n) = some text

/-- The target after `Unmarshal` was applied to the first `n` editor outputs. -/
def targetAfter {α τ : Type} (json : Json α τ) (e : Nat → String) (target : τ) : Nat → τ
  | 0 => target
  | n + 1 => (json.Unmarshal (e n) (targetAfter json e target n)).1

/-- A one-field document, the Go type `struct { A uint }` with JSON key `a`. -/
structure Doc where
  a : Nat
  deriving DecidableEq, Repr

/-- Value of a list of decimal digits. -/
def digitsValue (ds : List Char) : Nat :=
  ds.foldl (fun acc c => 10 * acc + (c.toNat - 48)) 0

/-- A codec for `Doc` that agrees with `encoding/json` on the texts used below:
it prints the document on three lines and accepts the compact form with a
decimal number, rejecting every other text without touching the target. -/
def docJson : Json Doc Doc where
  MarshalIndent := fun d pfx indent =>
    .ok (pfx ++ "\x7b\n" ++ pfx ++ indent ++ "\"a\": " ++ toString d.a ++ "\n" ++ pfx ++ "\x7d")
  Unmarshal := fun text target =>
    let body := (text.data.drop 5).dropLast
    if text.data.take 5 = "\x7b\"a\":".data ∧ text.data.getLast? = some (Char.ofNat 125) ∧
        body ≠ [] ∧ body.all Char.isDigit = true then
      ({ a := digitsValue body }, none)
    else
      (target, some (.sys "invalid character looking for beginning of object key string"))

/-- Texts a user leaves in the editor: first a broken one, then a valid one. -/
def typed (n : Nat) : String :=
  if n = 0 then "\x7bnot json" else "\x7b\"a\":2\x7d"

/-- An environment without faults whose editor leaves `typed n` in the file it
is given during call `n`. -/
def scripted : Env where
  getenv := fun _ => ""
  uuid := fun n => "call-" ++ toString n
  writeFile := fun _ => .ok
  proc := fun n argv fs => { fs := fs.write (argv.getD 1 "") (typed n) }
  readFile := fun _ => none

/-- As `scripted`, but from the second call on the editor exits with status 1. -/
def crashing : Env where
  getenv := fun _ => ""
  uuid := fun n => "call-" ++ toString n
  writeFile := fun _ => .ok
  proc := fun n argv fs =>
    { exitCode := if n = 0 then 0 else 1, fs := fs.write (argv.getD 1 "") (typed n) }
  readFile := fun _ => none

/-- An environment without faults whose editor exits at once, changing nothing. -/
def idle : Env where
  getenv := fun _ => ""
  uuid := fun n => "call-" ++ toString n
  writeFile := fun _ => .ok
  proc := fun _ _ fs => { fs := fs }
  readFile := fun _ => none

/-- The world before the first call: an empty temporary directory. -/
def emptyWorld : World := { fs := fun _ => none }

end editor

/-! ## Checks of the library model -/

theorem TrimSpace_samples :
    TrimSpace "  a b \t\n" = "a b" ∧ TrimSpace " \t " = "" ∧ TrimSpace "" = "" ∧
      TrimSpace "cat >" = "cat >" := by
  decide

/-! ## Package `filemgr` -/

namespace filemgr

theorem SetReadCmd_readCmd (cmd : String) (s : Store) :
    (SetReadCmd cmd s).readCmd =
      if TrimSpace cmd ≠ "" ∧ s.readCmd = readDefault then cmd else s.readCmd := by
  unfold SetReadCmd
  split <;> rfl

theorem SetWriteCmd_writeCmd (cmd : String) (s : Store) :
    (SetWriteCmd cmd s).writeCmd =
      if TrimSpace cmd ≠ "" ∧ s.writeCmd = writeDefault then cmd else s.writeCmd := by
  unfold SetWriteCmd
  split <;> rfl

theorem SetReadCmd_writeCmd (cmd : String) (s : Store) :
    (SetReadCmd cmd s).writeCmd = s.writeCmd := by
  unfold SetReadCmd
  split <;> rfl

theorem SetWriteCmd_readCmd (cmd : String) (s : Store) :
    (SetWriteCmd cmd s).readCmd = s.readCmd := by
  unfold SetWriteCmd
  split <;> rfl

theorem ReadFile_cmds (sh : Shell) (path : String) (s : Store) :
    (ReadFile sh path s).2.writeCmd = s.writeCmd ∧ (ReadFile sh path s).2.readCmd = s.readCmd := by
  unfold ReadFile
  simp only []
  split
  · exact ⟨rfl, rfl⟩
  · split
    · exact ⟨rfl, rfl⟩
    · split
      · exact ⟨rfl, rfl⟩
      · split
        · exact ⟨rfl, rfl⟩
        · split <;> exact ⟨rfl, rfl⟩

theorem WriteFile_cmds (sh : Shell) (path content : String) (s : Store) :
    (WriteFile sh path content s).2.writeCmd = s.writeCmd ∧
      (WriteFile sh path content s).2.readCmd = s.readCmd := by
  unfold WriteFile
  simp only []
  split
  · exact ⟨rfl, rfl⟩
  · split <;> exact ⟨rfl, rfl⟩

theorem step_frozen (sh : Shell) (s : Store) (op : Op) :
    (s.writeCmd ≠ writeDefault → (step sh s op).writeCmd = s.writeCmd) ∧
      (s.readCmd ≠ readDefault → (step sh s op).readCmd = s.readCmd) := by
  cases op with
  | SetReadCmd cmd =>
    refine ⟨fun _ => SetReadCmd_writeCmd cmd s, fun h => ?_⟩
    show (SetReadCmd cmd s).readCmd = s.readCmd
    rw [SetReadCmd_readCmd, if_neg (fun hc => h hc.2)]
  | SetWriteCmd cmd =>
    refine ⟨fun h => ?_, fun _ => SetWriteCmd_readCmd cmd s⟩
    show (SetWriteCmd cmd s).writeCmd = s.writeCmd
    rw [SetWriteCmd_writeCmd, if_neg (fun hc => h hc.2)]
  | ReadFile path => exact ⟨fun _ => (ReadFile_cmds sh path s).1, fun _ => (ReadFile_cmds sh path s).2⟩
  | WriteFile path content =>
    exact ⟨fun _ => (WriteFile_cmds sh path content s).1, fun _ => (WriteFile_cmds sh path content s).2⟩

theorem run_writeCmd_frozen (sh : Shell) (ops : List Op) (s : Store)
    (h : s.writeCmd ≠ writeDefault) : (run sh s ops).writeCmd = s.writeCmd := by
  induction ops generalizing s with
  | nil => rfl
  | cons op ops ih =>
    have h1 := (step_frozen sh s op).1 h
    show (run sh (step sh s op) ops).writeCmd = s.writeCmd
    rw [ih (step sh s op) (by rw [h1]; exact h), h1]

theorem run_readCmd_frozen (sh : Shell) (ops : List Op) (s : Store)
    (h : s.readCmd ≠ readDefault) : (run sh s ops).readCmd = s.readCmd := by
  induction ops generalizing s with
  | nil => rfl
  | cons op ops ih =>
    have h1 := (step_frozen sh s op).2 h
    show (run sh (step sh s op) ops).readCmd = s.readCmd
    rw [ih (step sh s op) (by rw [h1]; exact h), h1]

/-- C1: `SetReadCmd cmd` leaves `readCmd` equal to `cmd` exactly when `cmd` is
non-blank after trimming and `readCmd` was the compiled-in default, or `readCmd`
already was `cmd`; otherwise `readCmd` is unchanged. `SetWriteCmd` behaves the
same way on `writeCmd`, neither setter touches the other variable, and `init`
applies the two setters to the values of `FILE_WRITER_CMD` and `FILE_READER_CMD`. -/
theorem set_cmd_iff (getenv : String → String) (s : Store) (cmd : String) :
    (((SetReadCmd cmd s).readCmd = cmd ↔
        (TrimSpace cmd ≠ "" ∧ s.readCmd = readDefault) ∨ s.readCmd = cmd) ∧
      (((TrimSpace cmd ≠ "" ∧ s.readCmd = readDefault) ∨ s.readCmd = cmd) ∨
        (SetReadCmd cmd s).readCmd = s.readCmd) ∧
      (SetReadCmd cmd s).writeCmd = s.writeCmd) ∧
    (((SetWriteCmd cmd s).writeCmd = cmd ↔
        (TrimSpace cmd ≠ "" ∧ s.writeCmd = writeDefault) ∨ s.writeCmd = cmd) ∧
      (((TrimSpace cmd ≠ "" ∧ s.writeCmd = writeDefault) ∨ s.writeCmd = cmd) ∨
        (SetWriteCmd cmd s).writeCmd = s.writeCmd) ∧
      (SetWriteCmd cmd s).readCmd = s.readCmd) ∧
    (((init getenv s).writeCmd = getenv "FILE_WRITER_CMD" ↔
        (TrimSpace (getenv "FILE_WRITER_CMD") ≠ "" ∧ s.writeCmd = writeDefault) ∨
          s.writeCmd = getenv "FILE_WRITER_CMD") ∧
      (((TrimSpace (getenv "FILE_WRITER_CMD") ≠ "" ∧ s.writeCmd = writeDefault) ∨
          s.writeCmd = getenv "FILE_WRITER_CMD") ∨ (init getenv s).writeCmd = s.writeCmd) ∧
      ((init getenv s).readCmd = getenv "FILE_READER_CMD" ↔
        (TrimSpace (getenv "FILE_READER_CMD") ≠ "" ∧ s.readCmd = readDefault) ∨
          s.readCmd = getenv "FILE_READER_CMD") ∧
      (((TrimSpace (getenv "FILE_READER_CMD") ≠ "" ∧ s.readCmd = readDefault) ∨
          s.readCmd = getenv "FILE_READER_CMD") ∨ (init getenv s).readCmd = s.readCmd)) := by
  have hr : ∀ (c : String) (t : Store),
      ((SetReadCmd c t).readCmd = c ↔
        (TrimSpace c ≠ "" ∧ t.readCmd = readDefault) ∨ t.readCmd = c) ∧
      (((TrimSpace c ≠ "" ∧ t.readCmd = readDefault) ∨ t.readCmd = c) ∨
        (SetReadCmd c t).readCmd = t.readCmd) := by
    intro c t
    rw [SetReadCmd_readCmd]
    by_cases hg : TrimSpace c ≠ "" ∧ t.readCmd = readDefault
    · rw [if_pos hg]
      exact ⟨⟨fun _ => Or.inl hg, fun _ => rfl⟩, Or.inl (Or.inl hg)⟩
    · rw [if_neg hg]
      exact ⟨⟨fun h => Or.inr h, fun h => h.elim (fun h1 => absurd h1 hg) id⟩, Or.inr rfl⟩
  have hw : ∀ (c : String) (t : Store),
      ((SetWriteCmd c t).writeCmd = c ↔
        (TrimSpace c ≠ "" ∧ t.writeCmd = writeDefault) ∨ t.writeCmd = c) ∧
      (((TrimSpace c ≠ "" ∧ t.writeCmd = writeDefault) ∨ t.writeCmd = c) ∨
        (SetWriteCmd c t).writeCmd = t.writeCmd) := by
    intro c t
    rw [SetWriteCmd_writeCmd]
    by_cases hg : TrimSpace c ≠ "" ∧ t.writeCmd = writeDefault
    · rw [if_pos hg]
      exact ⟨⟨fun _ => Or.inl hg, fun _ => rfl⟩, Or.inl (Or.inl hg)⟩
    · rw [if_neg hg]
      exact ⟨⟨fun h => Or.inr h, fun h => h.elim (fun h1 => absurd h1 hg) id⟩, Or.inr rfl⟩
  have hiw : (init getenv s).writeCmd = (SetWriteCmd (getenv "FILE_WRITER_CMD") s).writeCmd :=
    SetReadCmd_writeCmd _ _
  have hir : (init getenv s).readCmd = (SetReadCmd (getenv "FILE_READER_CMD") s).readCmd := by
    unfold init
    rw [SetReadCmd_readCmd, SetReadCmd_readCmd, SetWriteCmd_readCmd]
  refine ⟨⟨(hr cmd s).1, (hr cmd s).2, SetReadCmd_writeCmd cmd s⟩,
    ⟨(hw cmd s).1, (hw cmd s).2, SetWriteCmd_readCmd cmd s⟩, ?_, ?_, ?_, ?_⟩
  · rw [hiw]; exact (hw _ s).1
  · rw [hiw]; exact (hw _ s).2
  · rw [hir]; exact (hr _ s).1
  · rw [hir]; exact (hr _ s).2

/-- C2, as first stated, fails: the compiled-in default is itself a non-blank
string, and after `SetReadCmd readDefault` the variable still equals the default,
so a second call with `"cat"` takes effect. -/
theorem first_override_wins_counterexample :
    initial.readCmd = readDefault ∧ TrimSpace "gpg -d -q" ≠ "" ∧
      (SetReadCmd "cat" (SetReadCmd "gpg -d -q" initial)).readCmd = "cat" ∧
      (SetReadCmd "cat" (SetReadCmd "gpg -d -q" initial)).readCmd ≠ "gpg -d -q" := by
  decide

/-- C2 (amended): from a state whose `readCmd` is the compiled-in default, for
every non-blank `X` other than that default and every `Y`, `SetReadCmd X`
followed by `SetReadCmd Y` leaves `readCmd = X`, and a following `ReadFile path`
whose pipes can be set up starts exactly the command `sh -c "X path"`. -/
theorem first_override_wins (sh : Shell) (s : Store) (X Y path : String)
    (hs : s.readCmd = readDefault) (hX : TrimSpace X ≠ "") (hne : X ≠ readDefault)
    (hp1 : (sh ["sh", "-c", X ++ " " ++ path] "").stderrPipe = none)
    (hp2 : (sh ["sh", "-c", X ++ " " ++ path] "").stdoutPipe = none) :
    (SetReadCmd Y (SetReadCmd X s)).readCmd = X ∧
      (ReadFile sh path (SetReadCmd Y (SetReadCmd X s))).2.execs =
        (SetReadCmd Y (SetReadCmd X s)).execs ++ [["sh", "-c", X ++ " " ++ path]] := by
  have h1 : (SetReadCmd X s).readCmd = X := by
    rw [SetReadCmd_readCmd, if_pos ⟨hX, hs⟩]
  have h2 : (SetReadCmd Y (SetReadCmd X s)).readCmd = X := by
    rw [SetReadCmd_readCmd, if_neg (fun hc => hne (h1.symm.trans hc.2)), h1]
  refine ⟨h2, ?_⟩
  generalize SetReadCmd Y (SetReadCmd X s) = t at h2 ⊢
  unfold ReadFile
  simp only [h2, hp1, hp2]
  split
  · rfl
  · split
    · rfl
    · split <;> rfl

/-- Witness of C2 (amended): `X = "X"`, `Y = "Y"`, initial state, a shell whose
commands all succeed silently. -/
theorem first_override_wins_witness :
    (SetReadCmd "Y" (SetReadCmd "X" initial)).readCmd = "X" ∧
      (ReadFile (fun _ _ => {}) "notes.gpg" (SetReadCmd "Y" (SetReadCmd "X" initial))).2.execs =
        (SetReadCmd "Y" (SetReadCmd "X" initial)).execs ++ [["sh", "-c", "X" ++ " " ++ "notes.gpg"]] :=
  first_override_wins (fun _ _ => {}) initial "X" "Y" "notes.gpg" rfl (by decide) (by decide)
    rfl rfl

/-- C3: in the state `s` reached from any state `s0` by any finite sequence of
calls, if `writeCmd` differs from `writeDefault` then no further sequence of
calls changes `writeCmd`, and if `readCmd` differs from `readDefault` then no
further sequence of calls changes `readCmd`. -/
theorem frozen_after_override (sh : Shell) (s0 : Store) (before after : List Op) :
    ((run sh s0 before).writeCmd ≠ writeDefault →
        (run sh (run sh s0 before) after).writeCmd = (run sh s0 before).writeCmd) ∧
      ((run sh s0 before).readCmd ≠ readDefault →
        (run sh (run sh s0 before) after).readCmd = (run sh s0 before).readCmd) :=
  ⟨run_writeCmd_frozen sh after _, run_readCmd_frozen sh after _⟩

/-- Witness of C3: after an environment override of both commands, later
setter calls, reads and writes leave both commands as the environment set them. -/
theorem frozen_after_override_witness :
    ((run (fun _ _ => {}) initial [.SetWriteCmd "cat >", .SetReadCmd "cat"]).writeCmd
        ≠ writeDefault ∧
      (run (fun _ _ => {})
          (run (fun _ _ => {}) initial [.SetWriteCmd "cat >", .SetReadCmd "cat"])
          [.SetWriteCmd "tee", .WriteFile "f" "x", .SetReadCmd "less", .ReadFile "f"]).writeCmd =
        (run (fun _ _ => {}) initial [.SetWriteCmd "cat >", .SetReadCmd "cat"]).writeCmd) ∧
    ((run (fun _ _ => {}) initial [.SetWriteCmd "cat >", .SetReadCmd "cat"]).readCmd
        ≠ readDefault ∧
      (run (fun _ _ => {})
          (run (fun _ _ => {}) initial [.SetWriteCmd "cat >", .SetReadCmd "cat"])
          [.SetWriteCmd "tee", .WriteFile "f" "x", .SetReadCmd "less", .ReadFile "f"]).readCmd =
        (run (fun _ _ => {}) initial [.SetWriteCmd "cat >", .SetReadCmd "cat"]).readCmd) :=
  ⟨⟨by decide, (frozen_after_override (fun _ _ => {}) initial
        [.SetWriteCmd "cat >", .SetReadCmd "cat"]
        [.SetWriteCmd "tee", .WriteFile "f" "x", .SetReadCmd "less", .ReadFile "f"]).1
        (by decide)⟩,
    ⟨by decide, (frozen_after_override (fun _ _ => {}) initial
        [.SetWriteCmd "cat >", .SetReadCmd "cat"]
        [.SetWriteCmd "tee", .WriteFile "f" "x", .SetReadCmd "less", .ReadFile "f"]).2
        (by decide)⟩⟩

theorem ShRun.wait_eq_none_iff (cmd : ShRun) :
    cmd.wait = none ↔ cmd.signal = none ∧ cmd.exitCode = 0 := by
  unfold ShRun.wait Wait
  cases cmd.signal with
  | none => by_cases h : cmd.exitCode = 0 <;> simp [h]
  | some sig => simp

theorem utf8ByteSize_replicate (n : Nat) :
    (String.mk (List.replicate n (Char.ofNat 120))).utf8ByteSize = n := by
  induction n with
  | zero => rfl
  | succ n ih =>
    have hstep : (String.mk (List.replicate (n + 1) (Char.ofNat 120))).utf8ByteSize =
        (String.mk (List.replicate n (Char.ofNat 120))).utf8ByteSize +
          (Char.ofNat 120).utf8Size := rfl
    rw [hstep, ih]
    rfl

theorem bigContent_size : bigContent.utf8ByteSize = 65537 :=
  utf8ByteSize_replicate 65537

/-- Outcome of the two commands when the reader does not block: let `r` be the
run of `sh -c "<readCmd> <path>"` and `w` the run of `sh -c "<writeCmd> <path>"`
fed `content`, both started successfully.
If `r` is terminated by a signal or its standard output fits in the pipe,
`ReadFile` returns; it fails exactly when `r` does not exit with status 0, with
the empty string and the message made of the captured standard error, `": "`
and the message of the process error; otherwise it returns the captured
standard output and no error. `WriteFile` fails exactly when `w` does not exit
with status 0, with the message made of the combined output, `": "` and the
message of the process error. -/
theorem ReadFile_WriteFile_outcome (sh : Shell) (s : Store) (path content : String)
    (r w : ShRun)
    (hr : sh ["sh", "-c", s.readCmd ++ " " ++ path] "" = r)
    (hw : sh ["sh", "-c", s.writeCmd ++ " " ++ path] content = w)
    (hrs : r.stderrPipe = none ∧ r.stdoutPipe = none ∧ r.start = none)
    (hws : w.stdinPipe = none ∧ w.start = none)
    (hfit : r.signal ≠ none ∨ r.stdout.utf8ByteSize ≤ pipeBuffer) :
    (∃ res, (ReadFile sh path s).1 = some res ∧
      (res.2 ≠ none ↔ ¬ (r.signal = none ∧ r.exitCode = 0)) ∧
      (∀ err, r.wait = some err →
        res.1 = "" ∧ ∃ e, res.2 = some e ∧ e.Error = r.stderr ++ ": " ++ err.Error) ∧
      (r.wait = none → res = (r.stdout, none))) ∧
    ((WriteFile sh path content s).1 ≠ none ↔ ¬ (w.signal = none ∧ w.exitCode = 0)) ∧
    (∀ err, w.wait = some err →
      ∃ e, (WriteFile sh path content s).1 = some e ∧
        e.Error = w.combined ++ ": " ++ err.Error) := by
  obtain ⟨hr1, hr2, hr3⟩ := hrs
  obtain ⟨hw1, hw2⟩ := hws
  have hguard : ¬ (r.signal = none ∧ pipeBuffer < r.stdout.utf8ByteSize) := by
    rintro ⟨h1, h2⟩
    rcases hfit with h | h
    · exact h h1
    · exact Nat.lt_irrefl _ (Nat.lt_of_lt_of_le h2 h)
  refine ⟨?_, ?_, ?_⟩
  · rcases hwait : r.wait with _ | err
    · refine ⟨(r.stdout, none), ?_, ?_, ?_, ?_⟩
      · simp [ReadFile, hr, hr1, hr2, hr3, hguard, hwait]
      · have := (ShRun.wait_eq_none_iff r).mp hwait
        simp [this]
      · intro err h
        cases h
      · intro _
        rfl
    · refine ⟨("", some (Errorf r.stderr err)), ?_, ?_, ?_, ?_⟩
      · simp [ReadFile, hr, hr1, hr2, hr3, hguard, hwait]
      · have hne : ¬ (r.signal = none ∧ r.exitCode = 0) := by
          intro h
          rw [(ShRun.wait_eq_none_iff r).mpr h] at hwait
          cases hwait
        simp [hne]
      · intro err2 h
        simp only [Option.some.injEq] at h
        subst h
        exact ⟨rfl, _, rfl, rfl⟩
      · intro h
        cases h
  · rcases hwait : w.wait with _ | err
    · have := (ShRun.wait_eq_none_iff w).mp hwait
      simp [WriteFile, CombinedOutput, hw, hw1, hw2, hwait, this]
    · have hne : ¬ (w.signal = none ∧ w.exitCode = 0) := by
        intro h
        rw [(ShRun.wait_eq_none_iff w).mpr h] at hwait
        cases hwait
      simp only [WriteFile, CombinedOutput, hw, hw1, hw2, hwait]
      simp [hne]
  · intro err hwait
    refine ⟨Errorf w.combined err, ?_, rfl⟩
    simp [WriteFile, CombinedOutput, hw, hw1, hw2, hwait]

/-- Instances of the previous statement: a reader and a writer that exit with
status 2, a reader that prints a note and exits with status 0, a writer that
exits with status 0, and a reader killed by a signal. -/
theorem ReadFile_WriteFile_samples :
    (ReadFile failingShell "f" initial).1 =
        some ("", some (.errorString "gpg: decryption failed: exit status 2")) ∧
      (WriteFile failingShell "f" "text" initial).1 =
        some (.errorString "gpg: no such key: exit status 2") ∧
      (ReadFile noteShell "f" initial).1 = some ("remember the milk\n", none) ∧
      (WriteFile catShell "f" "text" initial).1 = none ∧
      (ReadFile killedShell "f" initial).1 =
        some ("", some (.errorString "gpg: interrupted: signal: killed")) := by
  decide

/-- C10, at the failing input: the process starts with `FILE_READER_CMD="cat"`
and `ReadFile "big.txt"` is called on a file of 65537 bytes. The command
`sh -c "cat big.txt"` is started, would print the file on standard output and
exit with status 0, and `ReadFile` never returns: it waits for the end of
standard error while the process waits for room in the standard output pipe. -/
theorem ReadFile_large_output_never_returns :
    (init catReaderEnv initial).readCmd = "cat" ∧
      (bigFileShell ["sh", "-c", "cat big.txt"] "").start = none ∧
      (bigFileShell ["sh", "-c", "cat big.txt"] "").exitCode = 0 ∧
      (bigFileShell ["sh", "-c", "cat big.txt"] "").signal = none ∧
      (bigFileShell ["sh", "-c", "cat big.txt"] "").stdout.utf8ByteSize = 65537 ∧
      (ReadFile bigFileShell "big.txt" (init catReaderEnv initial)).2.execs =
        [["sh", "-c", "cat big.txt"]] ∧
      (ReadFile bigFileShell "big.txt" (init catReaderEnv initial)).1 = none := by
  have hcmd : (init catReaderEnv initial).readCmd = "cat" := by decide
  have hline : (init catReaderEnv initial).readCmd ++ " " ++ "big.txt" = "cat big.txt" := by
    rw [hcmd]
    decide
  have hexecs : (init catReaderEnv initial).execs = [] := by decide
  have hrun : bigFileShell ["sh", "-c", "cat big.txt"] "" =
      { stdout := bigContent, combined := bigContent } := by
    unfold bigFileShell
    rw [if_pos rfl]
  have hsize : (bigFileShell ["sh", "-c", "cat big.txt"] "").stdout.utf8ByteSize = 65537 := by
    rw [hrun]
    exact bigContent_size
  have hbig : pipeBuffer < bigContent.utf8ByteSize := by
    rw [bigContent_size]
    decide
  refine ⟨hcmd, by rw [hrun], by rw [hrun], by rw [hrun], hsize, ?_, ?_⟩
  · simp only [ReadFile, hline, hrun, hexecs]
    simp [hbig]
  · simp only [ReadFile, hline, hrun]
    simp [hbig]

end filemgr

/-! ## Package `editor` -/

namespace editor

theorem docJson_samples :
    docJson.Unmarshal "\x7b\"a\":2\x7d" ⟨1⟩ = (⟨2⟩, none) ∧
      docJson.Unmarshal "\x7b\"a\":27\x7d" ⟨1⟩ = (⟨27⟩, none) ∧
      (docJson.Unmarshal "\x7bnot json" ⟨1⟩).1 = ⟨1⟩ ∧
      (docJson.Unmarshal "\x7bnot json" ⟨1⟩).2 ≠ none := by
  decide

theorem FS_write_same (fs : FS) (path data : String) : (fs.write path data) path = some data := by
  simp [FS.write]

theorem FS_remove_same (fs : FS) (path : String) : (fs.remove path) path = none := by
  simp [FS.remove]

/-- C7: if the temporary file is written, the editor starts and exits with
status 0 leaving that file as it found it, and the file is read back without an
injected error, then `Edit s` returns `s` with no error and the temporary file
does not exist afterwards. -/
theorem Edit_unchanged (env : Env) (s : String) (w : World) (r : ProcResult)
    (hwrite : env.writeFile w.clock = .ok) (hread : env.readFile w.clock = none)
    (hr : env.proc w.clock [editorvar env, filename env w.clock]
      (w.fs.write (filename env w.clock) s) = r)
    (hstart : r.start = none) (hexit : r.exitCode = 0)
    (hsame : r.fs (filename env w.clock) =
      (w.fs.write (filename env w.clock) s) (filename env w.clock)) :
    (Edit env s w).1 = (s, none) ∧ (Edit env s w).2.fs (filename env w.clock) = none := by
  rw [FS_write_same] at hsame
  simp [Edit, ioutil.WriteFile, hwrite, Run, hr, hstart, hexit, Wait, ioutil.ReadFile, hread,
    hsame, Remove, FS_remove_same]

/-- C8: if the temporary file is written and the editor fails to start or exits
with a non-zero status, `Edit` returns the empty string together with the
error of `Run` (the start error, or the exit error), whatever the process left
in the file system. -/
theorem Edit_editor_failure (env : Env) (content : String) (w : World) (r : ProcResult)
    (hwrite : env.writeFile w.clock = .ok)
    (hr : env.proc w.clock [editorvar env, filename env w.clock]
      (w.fs.write (filename env w.clock) content) = r)
    (hfail : r.start ≠ none ∨ r.exitCode ≠ 0) :
    (Edit env content w).1 =
      ("", some (match r.start with
        | some err => err
        | none => GoError.exit r.exitCode)) := by
  cases hs : r.start with
  | some err => simp [Edit, ioutil.WriteFile, hwrite, Run, hr, hs]
  | none =>
    have hc : r.exitCode ≠ 0 := hfail.resolve_left (fun h => h hs)
    simp [Edit, ioutil.WriteFile, hwrite, Run, hr, hs, Wait, hc]

/-- C9, at the failing input: when the temporary file is created but writing
it fails, `Edit` returns the error and the temporary file still exists. -/
theorem Edit_write_failure_leaves_file :
    (Edit fullDisk "hello" { fs := fun _ => none }).1 =
        ("", some (.sys "write: no space left on device")) ∧
      (Edit fullDisk "hello" { fs := fun _ => none }).2.fs
        (filename fullDisk 0) = some "" := by
  decide

/-- On every exit path of `Edit` other than a failed write, the temporary
file does not exist afterwards (for a failed open: if it did not exist before). -/
theorem Edit_removes_file (env : Env) (content : String) (w : World)
    (h : env.writeFile w.clock = .ok ∨
      ((∃ err, env.writeFile w.clock = .openFails err) ∧ w.fs (filename env w.clock) = none)) :
    (Edit env content w).2.fs (filename env w.clock) = none := by
  rcases h with h | ⟨⟨err, h⟩, hfs⟩
  · simp only [Edit, ioutil.WriteFile, h]
    split
    · exact FS_remove_same _ _
    · split <;> exact FS_remove_same _ _
  · simp [Edit, ioutil.WriteFile, h, hfs]

theorem Edit_frame (env : Env) (j : String) (w : World) :
    (Edit env j w).2.clock = w.clock + 1 ∧ (Edit env j w).2.stdout = w.stdout ∧
      (Edit env j w).2.acks = w.acks := by
  rcases hwf : env.writeFile w.clock with _ | err | ⟨err, n⟩
  · rcases hst : (env.proc w.clock [editorvar env, filename env w.clock]
        (w.fs.write (filename env w.clock) j)).start with _ | err
    · by_cases hex : (env.proc w.clock [editorvar env, filename env w.clock]
          (w.fs.write (filename env w.clock) j)).exitCode = 0
      · simp only [Edit, ioutil.WriteFile, hwf, Run, hst, Wait, hex, if_true]
        split <;> exact ⟨rfl, rfl, rfl⟩
      · simp [Edit, ioutil.WriteFile, hwf, Run, hst, Wait, hex, Remove]
    · simp [Edit, ioutil.WriteFile, hwf, Run, hst, Remove]
  · simp [Edit, ioutil.WriteFile, hwf]
  · simp [Edit, ioutil.WriteFile, hwf]

theorem Edit_launches (env : Env) (j : String) (w : World) :
    ((Edit env j w).1.2 ≠ none ∧ (Edit env j w).2.launches = w.launches) ∨
      ∃ l, (Edit env j w).2.launches = w.launches ++ [l] ∧ handed l = some j ∧
        ∀ text, (Edit env j w).1 = (text, none) → returned l = some text := by
  rcases hwf : env.writeFile w.clock with _ | err | ⟨err, n⟩
  · right
    refine ⟨{ argv := [editorvar env, filename env w.clock],
              fs := w.fs.write (filename env w.clock) j,
              result := env.proc w.clock [editorvar env, filename env w.clock]
                (w.fs.write (filename env w.clock) j) }, ?_, ?_, ?_⟩
    · rcases hst : (env.proc w.clock [editorvar env, filename env w.clock]
          (w.fs.write (filename env w.clock) j)).start with _ | err
      · by_cases hex : (env.proc w.clock [editorvar env, filename env w.clock]
            (w.fs.write (filename env w.clock) j)).exitCode = 0
        · simp only [Edit, ioutil.WriteFile, hwf, Run, hst, Wait, hex, if_true]
          split <;> rfl
        · simp [Edit, ioutil.WriteFile, hwf, Run, hst, Wait, hex, Remove]
      · simp [Edit, ioutil.WriteFile, hwf, Run, hst, Remove]
    · simp [handed, FS.write]
    · intro text
      rcases hst : (env.proc w.clock [editorvar env, filename env w.clock]
          (w.fs.write (filename env w.clock) j)).start with _ | err
      · by_cases hex : (env.proc w.clock [editorvar env, filename env w.clock]
            (w.fs.write (filename env w.clock) j)).exitCode = 0
        · rcases hrf : env.readFile w.clock with _ | err
          · rcases hfs : (env.proc w.clock [editorvar env, filename env w.clock]
                (w.fs.write (filename env w.clock) j)).fs (filename env w.clock) with _ | data
            · simp [Edit, ioutil.WriteFile, hwf, Run, hst, Wait, hex, ioutil.ReadFile, hrf, hfs]
            · simp [Edit, ioutil.WriteFile, hwf, Run, hst, Wait, hex, ioutil.ReadFile, hrf, hfs,
                returned]
          · simp [Edit, ioutil.WriteFile, hwf, Run, hst, Wait, hex, ioutil.ReadFile, hrf]
        · simp [Edit, ioutil.WriteFile, hwf, Run, hst, Wait, hex]
      · simp [Edit, ioutil.WriteFile, hwf, Run, hst]
  · left
    simp [Edit, ioutil.WriteFile, hwf]
  · left
    simp [Edit, ioutil.WriteFile, hwf]

theorem Edit_of_returns (env : Env) (j text : String) (w : World)
    (h : EditorReturns env w.clock text) :
    (Edit env j w).1 = (text, none) ∧ (Edit env j w).2.clock = w.clock + 1 ∧
      (Edit env j w).2.launches.length = w.launches.length + 1 ∧
      (Edit env j w).2.stdout = w.stdout ∧ (Edit env j w).2.acks = w.acks := by
  obtain ⟨hwf, hrf, hp⟩ := h
  obtain ⟨hst, hex, hfs⟩ := hp (w.fs.write (filename env w.clock) j)
  simp [Edit, ioutil.WriteFile, hwf, Run, hst, Wait, hex, ioutil.ReadFile, hrf, hfs, Remove]

theorem loop_succ_err {α τ : Type} (env : Env) (json : Json α τ) (fuel : Nat)
    (j text : String) (target : τ) (w w1 : World)
    (err : GoError) (h : Edit env j w = ((text, some err), w1)) :
    loop env json (fuel + 1) j target w = .returned (some err) target w1 := by
  simp [loop, h]

theorem loop_succ_ok {α τ : Type} (env : Env) (json : Json α τ) (fuel : Nat)
    (j text : String) (target t1 : τ) (w w1 : World)
    (h : Edit env j w = ((text, none), w1)) (hu : json.Unmarshal text target = (t1, none)) :
    loop env json (fuel + 1) j target w = .returned none t1 w1 := by
  simp [loop, h, hu]

theorem loop_succ_retry {α τ : Type} (env : Env) (json : Json α τ) (fuel : Nat)
    (j text : String) (target t1 : τ) (w w1 : World)
    (derr : GoError) (h : Edit env j w = ((text, none), w1))
    (hu : json.Unmarshal text target = (t1, some derr)) :
    loop env json (fuel + 1) j target w =
      loop env json fuel text t1 (ReadBytes (Printf (diagnostic derr) w1)) := by
  simp [loop, h, hu]

theorem loop_add {α τ : Type} (env : Env) (json : Json α τ) (n m : Nat)
    (j j1 : String) (target t1 : τ) (w w1 : World)
    (h : loop env json n j target w = .running j1 t1 w1) :
    loop env json (n + m) j target w = loop env json m j1 t1 w1 := by
  induction n generalizing j target w with
  | zero =>
    simp only [loop, Outcome.running.injEq] at h
    obtain ⟨rfl, rfl, rfl⟩ := h
    rw [Nat.zero_add]
  | succ n ih =>
    rcases he : Edit env j w with ⟨⟨text, _ | err⟩, w2⟩
    · rcases hu : json.Unmarshal text target with ⟨t2, _ | derr⟩
      · rw [loop_succ_ok env json n j text target t2 w w2 he hu] at h
        cases h
      · rw [loop_succ_retry env json n j text target t2 w w2 derr he hu] at h
        rw [Nat.add_right_comm, loop_succ_retry env json (n + m) j text target t2 w w2 derr he hu]
        exact ih _ _ _ h
    · rw [loop_succ_err env json n j text target w w2 err he] at h
      cases h

theorem loop_error_origin {α τ : Type} (env : Env) (json : Json α τ) (fuel : Nat)
    (j : String) (target t1 : τ) (w w1 : World)
    (err : GoError) (h : loop env json fuel j target w = .returned (some err) t1 w1) :
    ∃ n j0 w0 text, n < fuel ∧ loop env json n j target w = .running j0 t1 w0 ∧
      Edit env j0 w0 = ((text, some err), w1) := by
  induction fuel generalizing j target w with
  | zero => simp [loop] at h
  | succ n ih =>
    rcases he : Edit env j w with ⟨⟨text, _ | err2⟩, w2⟩
    · rcases hu : json.Unmarshal text target with ⟨t2, _ | derr⟩
      · rw [loop_succ_ok env json n j text target t2 w w2 he hu] at h
        cases h
      · rw [loop_succ_retry env json n j text target t2 w w2 derr he hu] at h
        obtain ⟨k, j0, w0, text0, hk, hrun, hed⟩ := ih _ _ _ h
        refine ⟨k + 1, j0, w0, text0, Nat.succ_lt_succ hk, ?_, hed⟩
        rw [loop_succ_retry env json k j text target t2 w w2 derr he hu]
        exact hrun
    · rw [loop_succ_err env json n j text target w w2 err2 he] at h
      simp only [Outcome.returned.injEq, Option.some.injEq] at h
      obtain ⟨rfl, rfl, rfl⟩ := h
      exact ⟨0, j, w, text, Nat.succ_pos n, rfl, he⟩

theorem targetAfter_shift {α τ : Type} (json : Json α τ) (e : Nat → String) (target : τ)
    (n : Nat) :
    targetAfter json e target (n + 1) =
      targetAfter json (fun m => e (m + 1)) (json.Unmarshal (e 0) target).1 n := by
  induction n with
  | zero => rfl
  | succ n ih =>
    show (json.Unmarshal (e (n + 1)) (targetAfter json e target (n + 1))).1 = _
    rw [ih]
    rfl

theorem loop_retry {α τ : Type} (env : Env) (json : Json α τ) (k : Nat) :
    ∀ (e : Nat → String) (j : String) (target : τ) (w : World) (fuel : Nat),
      (∀ n, n ≤ k → EditorReturns env (w.clock + n) (e n)) →
      (∀ n, n < k → (json.Unmarshal (e n) (targetAfter json e target n)).2 ≠ none) →
      (json.Unmarshal (e k) (targetAfter json e target k)).2 = none →
      k + 1 ≤ fuel →
      ∃ w1 ds, loop env json fuel j target w =
          .returned none (targetAfter json e target (k + 1)) w1 ∧
        w1.launches.length = w.launches.length + (k + 1) ∧
        w1.stdout = w.stdout ++ ds ∧ ds.length = k ∧
        (∀ n, n < k →
          ds[n]? = (json.Unmarshal (e n) (targetAfter json e target n)).2.map diagnostic) ∧
        w1.acks = w.acks + k := by
  induction k with
  | zero =>
    intro e j target w fuel hed _ hok hfuel
    obtain ⟨f, rfl⟩ : ∃ f, fuel = f + 1 := ⟨fuel - 1, by omega⟩
    obtain ⟨h1, _, h3, h4, h5⟩ := Edit_of_returns env j (e 0) w (hed 0 (Nat.le_refl 0))
    have he : Edit env j w = ((e 0, none), (Edit env j w).2) := Prod.ext h1 rfl
    have hu : json.Unmarshal (e 0) target = ((json.Unmarshal (e 0) target).1, none) :=
      Prod.ext rfl hok
    refine ⟨(Edit env j w).2, [], ?_, h3, ?_, rfl, ?_, h5⟩
    · rw [loop_succ_ok env json f j (e 0) target _ w _ he hu]
      rfl
    · rw [h4, List.append_nil]
    · intro n hn
      exact absurd hn (Nat.not_lt_zero n)
  | succ k ih =>
    intro e j target w fuel hed hfail hok hfuel
    obtain ⟨f, rfl⟩ : ∃ f, fuel = f + 1 := ⟨fuel - 1, by omega⟩
    obtain ⟨h1, h2, h3, h4, h5⟩ := Edit_of_returns env j (e 0) w (hed 0 (Nat.zero_le _))
    have he : Edit env j w = ((e 0, none), (Edit env j w).2) := Prod.ext h1 rfl
    obtain ⟨derr, hd⟩ : ∃ derr, (json.Unmarshal (e 0) target).2 = some derr :=
      Option.ne_none_iff_exists'.mp (hfail 0 (Nat.succ_pos k))
    have hu : json.Unmarshal (e 0) target = ((json.Unmarshal (e 0) target).1, some derr) :=
      Prod.ext rfl hd
    have hed1 : ∀ n, n ≤ k →
        EditorReturns env
          ((ReadBytes (Printf (diagnostic derr) (Edit env j w).2)).clock + n) (e (n + 1)) := by
      intro n hn
      have := hed (n + 1) (Nat.succ_le_succ hn)
      have hc : (ReadBytes (Printf (diagnostic derr) (Edit env j w).2)).clock + n =
          w.clock + (n + 1) := by
        show (Edit env j w).2.clock + n = _
        rw [h2]; omega
      rw [hc]
      exact this
    have hfail1 : ∀ n, n < k →
        (json.Unmarshal (e (n + 1))
          (targetAfter json (fun m => e (m + 1)) (json.Unmarshal (e 0) target).1 n)).2 ≠ none := by
      intro n hn
      rw [← targetAfter_shift]
      exact hfail (n + 1) (Nat.succ_lt_succ hn)
    have hok1 : (json.Unmarshal (e (k + 1))
        (targetAfter json (fun m => e (m + 1)) (json.Unmarshal (e 0) target).1 k)).2 = none := by
      rw [← targetAfter_shift]
      exact hok
    obtain ⟨w1, ds, hl, hlen, hout, hds, hnth, hacks⟩ :=
      ih (fun m => e (m + 1)) (e 0) (json.Unmarshal (e 0) target).1
        (ReadBytes (Printf (diagnostic derr) (Edit env j w).2)) f hed1 hfail1 hok1 (by omega)
    refine ⟨w1, diagnostic derr :: ds, ?_, ?_, ?_, ?_, ?_, ?_⟩
    · rw [loop_succ_retry env json f j (e 0) target _ w _ derr he hu, hl,
        targetAfter_shift json e target (k + 1)]
    · rw [hlen]
      show (Edit env j w).2.launches.length + (k + 1) = _
      rw [h3]; omega
    · rw [hout]
      show ((Edit env j w).2.stdout ++ [diagnostic derr]) ++ ds = _
      rw [h4, List.append_assoc]
      rfl
    · simp [hds]
    · intro n hn
      cases n with
      | zero =>
        rw [show targetAfter json e target 0 = target from rfl, hd]
        simp
      | succ n =>
        rw [List.getElem?_cons_succ, hnth n (Nat.lt_of_succ_lt_succ hn), targetAfter_shift]
    · rw [hacks]
      show (Edit env j w).2.acks + 1 + k = _
      rw [h5]; omega

theorem chain_single (j : String) (l : Launch) (h : handed l = some j) :
    (∀ l0, [l].head? = some l0 → handed l0 = some j) ∧
      (∀ m l0 l1, [l][m]? = some l0 → [l][m + 1]? = some l1 →
        ∃ text, returned l0 = some text ∧ handed l1 = some text) := by
  refine ⟨?_, ?_⟩
  · intro l0 h0
    simp only [List.head?_cons, Option.some.injEq] at h0
    rw [← h0]
    exact h
  · intro m l0 l1 _ h1
    simp at h1

theorem loop_launches {α τ : Type} (env : Env) (json : Json α τ) (fuel : Nat) :
    ∀ (j : String) (target : τ) (w : World),
      ∃ ls, (loop env json fuel j target w).world.launches = w.launches ++ ls ∧
        (∀ l, ls.head? = some l → handed l = some j) ∧
        (∀ m l l1, ls[m]? = some l → ls[m + 1]? = some l1 →
          ∃ text, returned l = some text ∧ handed l1 = some text) := by
  induction fuel with
  | zero =>
    intro j target w
    exact ⟨[], by simp [loop, Outcome.world], by simp, by simp⟩
  | succ n ih =>
    intro j target w
    have hL := Edit_launches env j w
    rcases he : Edit env j w with ⟨⟨text, _ | err⟩, w2⟩
    · rw [he] at hL
      rcases hL with ⟨hne, _⟩ | ⟨l, hl, hh, hr⟩
      · exact absurd rfl hne
      · have hret := hr text rfl
        rcases hu : json.Unmarshal text target with ⟨t2, _ | derr⟩
        · rw [loop_succ_ok env json n j text target t2 w w2 he hu]
          exact ⟨[l], hl, chain_single j l hh⟩
        · rw [loop_succ_retry env json n j text target t2 w w2 derr he hu]
          obtain ⟨ls, h1, h2, h3⟩ := ih text t2 (ReadBytes (Printf (diagnostic derr) w2))
          refine ⟨l :: ls, ?_, ?_, ?_⟩
          · rw [h1]
            show w2.launches ++ ls = _
            rw [hl, List.append_assoc]
            rfl
          · intro l0 h0
            simp only [List.head?_cons, Option.some.injEq] at h0
            rw [← h0]
            exact hh
          · intro m l0 l1 h0 h1'
            cases m with
            | zero =>
              simp only [List.getElem?_cons_zero, Option.some.injEq] at h0
              rw [List.getElem?_cons_succ] at h1'
              refine ⟨text, ?_, ?_⟩
              · rw [← h0]; exact hret
              · apply h2
                rw [← h1']
                cases ls <;> simp
            | succ m =>
              rw [List.getElem?_cons_succ] at h0 h1'
              exact h3 m l0 l1 h0 h1'
    · rw [he] at hL
      rw [loop_succ_err env json n j text target w w2 err he]
      rcases hL with ⟨_, hl⟩ | ⟨l, hl, hh, _⟩
      · exact ⟨[], by rw [List.append_nil]; exact hl, by simp, by simp⟩
      · exact ⟨[l], hl, chain_single j l hh⟩

/-- C4: if the value serialises to `j0`, calls `0..k` of `Edit` (counted from
the current one) meet no fault and leave the texts `e 0, ..., e k`, the texts
`e 0, ..., e (k-1)` fail to deserialise into the target and `e k` deserialises,
then with fuel for `k + 1` rounds `EditJSONTarget` returns no error, the target
holds the deserialisation of `e k`, the editor has run exactly `k + 1` more
times, and exactly `k` diagnostics were printed (the `n`-th being the one of
the `n`-th parse error) and acknowledged. -/
theorem EditJSONTarget_retry {α τ : Type} (env : Env) (json : Json α τ) (i : α) (target : τ)
    (w : World) (j0 : String) (k : Nat) (e : Nat → String) (fuel : Nat)
    (hser : json.MarshalIndent i "" "    " = .ok j0)
    (hed : ∀ n, n ≤ k → EditorReturns env (w.clock + n) (e n))
    (hfail : ∀ n, n < k → (json.Unmarshal (e n) (targetAfter json e target n)).2 ≠ none)
    (hok : (json.Unmarshal (e k) (targetAfter json e target k)).2 = none)
    (hfuel : k + 1 ≤ fuel) :
    ∃ w1 ds, EditJSONTarget env json fuel i target w =
        .returned none (json.Unmarshal (e k) (targetAfter json e target k)).1 w1 ∧
      w1.launches.length = w.launches.length + (k + 1) ∧
      w1.stdout = w.stdout ++ ds ∧ ds.length = k ∧
      (∀ n, n < k →
        ds[n]? = (json.Unmarshal (e n) (targetAfter json e target n)).2.map diagnostic) ∧
      w1.acks = w.acks + k := by
  have h := loop_retry env json k e j0 target w fuel hed hfail hok hfuel
  simp only [EditJSONTarget, hser]
  exact h

/-- Witness of C4: the value with `a = 1`, an editor that first leaves
`{not json` and then `{"a":2}`: two editor runs, one diagnostic, target `a = 2`. -/
theorem EditJSONTarget_retry_witness :
    ∃ w1 ds, EditJSONTarget scripted docJson 2 (⟨1⟩ : Doc) (⟨1⟩ : Doc) emptyWorld =
        .returned none (⟨2⟩ : Doc) w1 ∧
      w1.launches.length = 2 ∧ w1.stdout = ds ∧ ds.length = 1 ∧ w1.acks = 1 := by
  have hed : ∀ n, n ≤ 1 → EditorReturns scripted (emptyWorld.clock + n) (typed n) := by
    intro n _
    refine ⟨rfl, rfl, fun fs => ⟨rfl, rfl, ?_⟩⟩
    simp [scripted, FS.write, emptyWorld]
  have hfail : ∀ n, n < 1 →
      (docJson.Unmarshal (typed n) (targetAfter docJson typed (⟨1⟩ : Doc) n)).2 ≠ none := by
    intro n hn
    obtain rfl : n = 0 := by omega
    decide
  obtain ⟨w1, ds, h1, h2, h3, h4, _, h6⟩ :=
    EditJSONTarget_retry scripted docJson (⟨1⟩ : Doc) (⟨1⟩ : Doc) emptyWorld
      "\x7b\n    \"a\": 1\n\x7d" 1 typed 2 (congrArg Except.ok (by decide)) hed hfail (by decide)
      (Nat.le_refl 2)
  refine ⟨w1, ds, ?_, ?_, ?_, h4, ?_⟩
  · rw [h1]
    congr 1
  · rw [h2]; rfl
  · rw [h3]; rfl
  · rw [h6]; rfl

theorem Edit_launch_of_write (env : Env) (j : String) (w : World)
    (h : env.writeFile w.clock = .ok) :
    ∃ l, l.argv = [editorvar env, filename env w.clock] ∧ handed l = some j ∧
      (Edit env j w).2.launches = w.launches ++ [l] := by
  refine ⟨{ argv := [editorvar env, filename env w.clock],
            fs := w.fs.write (filename env w.clock) j,
            result := env.proc w.clock [editorvar env, filename env w.clock]
              (w.fs.write (filename env w.clock) j) }, rfl, ?_, ?_⟩
  · simp [handed, FS.write]
  · rcases hst : (env.proc w.clock [editorvar env, filename env w.clock]
        (w.fs.write (filename env w.clock) j)).start with _ | err
    · by_cases hex : (env.proc w.clock [editorvar env, filename env w.clock]
          (w.fs.write (filename env w.clock) j)).exitCode = 0
      · simp only [Edit, ioutil.WriteFile, h, Run, hst, Wait, hex, if_true]
        split <;> rfl
      · simp [Edit, ioutil.WriteFile, h, Run, hst, Wait, hex, Remove]
    · simp [Edit, ioutil.WriteFile, h, Run, hst, Remove]

theorem loop_succ_launches {α τ : Type} (env : Env) (json : Json α τ) (m : Nat)
    (j : String) (target : τ) (w : World) :
    ∃ rest, (loop env json (m + 1) j target w).world.launches =
      (Edit env j w).2.launches ++ rest := by
  rcases he : Edit env j w with ⟨⟨text, _ | err⟩, w2⟩
  · rcases hu : json.Unmarshal text target with ⟨t2, _ | derr⟩
    · rw [loop_succ_ok env json m j text target t2 w w2 he hu]
      exact ⟨[], (List.append_nil _).symm⟩
    · rw [loop_succ_retry env json m j text target t2 w w2 derr he hu]
      obtain ⟨ls, h1, _⟩ :=
        loop_launches env json m text t2 (ReadBytes (Printf (diagnostic derr) w2))
      exact ⟨ls, h1⟩
  · rw [loop_succ_err env json m j text target w w2 err he]
    exact ⟨[], (List.append_nil _).symm⟩

/-- C5: when the value serialises to `j0` (with empty prefix and four spaces
of indentation), (1) the loop of `EditJSONTarget` starts its first round with
the buffer `j0`; (2) in every round the loop reaches, with buffer `j`, if the
temporary file can be written then the editor is run on that file, finds `j` in
it, and this run is the next entry of the record of runs whatever happens
later; (3) whenever a round is followed by another round, the editor did run
in it, found the buffer `j` in its file, and the buffer of the following round
is exactly the text the editor left in that file; (4) hence the recorded runs
form a chain that starts at `j0` and in which every later run finds what the
run before it left. -/
theorem editor_input_chain {α τ : Type} (env : Env) (json : Json α τ) (i : α)
    (target : τ) (w : World) (j0 : String)
    (hser : json.MarshalIndent i "" "    " = .ok j0) :
    EditJSONTarget env json 0 i target w = .running j0 target w ∧
    (∀ n j t w0, EditJSONTarget env json n i target w = .running j t w0 →
      env.writeFile w0.clock = .ok →
      ∃ l, l.argv = [editorvar env, filename env w0.clock] ∧ handed l = some j ∧
        ∀ m, ∃ rest, (EditJSONTarget env json (n + 1 + m) i target w).world.launches =
          w0.launches ++ l :: rest) ∧
    (∀ n j t w0 j1 t1 w1, EditJSONTarget env json n i target w = .running j t w0 →
      EditJSONTarget env json (n + 1) i target w = .running j1 t1 w1 →
      ∃ l, w1.launches = w0.launches ++ [l] ∧ handed l = some j ∧ returned l = some j1) ∧
    (∀ fuel, ∃ ls,
      (EditJSONTarget env json fuel i target w).world.launches = w.launches ++ ls ∧
      (∀ l, ls.head? = some l → handed l = some j0) ∧
      (∀ m l l1, ls[m]? = some l → ls[m + 1]? = some l1 →
        ∃ text, returned l = some text ∧ handed l1 = some text)) := by
  have hE : ∀ fuel, EditJSONTarget env json fuel i target w =
      loop env json fuel j0 target w := by
    intro fuel
    simp only [EditJSONTarget, hser]
  refine ⟨by rw [hE]; rfl, ?_, ?_, ?_⟩
  · intro n j t w0 hrun hwf
    rw [hE] at hrun
    obtain ⟨l, hargv, hh, hl⟩ := Edit_launch_of_write env j w0 hwf
    refine ⟨l, hargv, hh, fun m => ?_⟩
    obtain ⟨rest, hrest⟩ := loop_succ_launches env json m j t w0
    refine ⟨rest, ?_⟩
    rw [hE, Nat.add_assoc, loop_add env json n (1 + m) j0 j target t w w0 hrun,
      Nat.add_comm 1 m, hrest, hl, List.append_assoc]
    rfl
  · intro n j t w0 j1 t1 w1 hrun hnext
    rw [hE] at hrun
    rw [hE, loop_add env json n 1 j0 j target t w w0 hrun] at hnext
    have hL := Edit_launches env j w0
    rcases he : Edit env j w0 with ⟨⟨text, _ | err⟩, w2⟩
    · rw [he] at hL
      rcases hu : json.Unmarshal text t with ⟨t2, _ | derr⟩
      · rw [loop_succ_ok env json 0 j text t t2 w0 w2 he hu] at hnext
        cases hnext
      · rw [loop_succ_retry env json 0 j text t t2 w0 w2 derr he hu] at hnext
        simp only [loop, Outcome.running.injEq] at hnext
        obtain ⟨rfl, rfl, rfl⟩ := hnext
        rcases hL with ⟨hne, _⟩ | ⟨l, hl, hh, hr⟩
        · exact absurd rfl hne
        · exact ⟨l, hl, hh, hr text rfl⟩
    · rw [loop_succ_err env json 0 j text t w0 w2 err he] at hnext
      cases hnext
  · intro fuel
    rw [hE]
    exact loop_launches env json fuel j0 target w

/-- Witness of C5: the scripted session. Both rounds can write their file, so
the editor runs twice: the first run finds the serialisation and leaves
`{not json`, the second finds `{not json` and leaves `{"a":2}`. -/
theorem editor_input_chain_witness :
    (∃ l, handed l = some "\x7b\n    \"a\": 1\n\x7d" ∧
      ∃ rest, (EditJSONTarget scripted docJson 2 (⟨1⟩ : Doc) (⟨1⟩ : Doc)
        emptyWorld).world.launches = emptyWorld.launches ++ l :: rest) ∧
    (∃ w1 l, EditJSONTarget scripted docJson 1 (⟨1⟩ : Doc) (⟨1⟩ : Doc) emptyWorld =
        .running "\x7bnot json" (⟨1⟩ : Doc) w1 ∧
      w1.launches = emptyWorld.launches ++ [l] ∧
      handed l = some "\x7b\n    \"a\": 1\n\x7d" ∧ returned l = some "\x7bnot json" ∧
      ∃ l1, handed l1 = some "\x7bnot json" ∧
        ∃ rest, (EditJSONTarget scripted docJson 2 (⟨1⟩ : Doc) (⟨1⟩ : Doc)
          emptyWorld).world.launches = w1.launches ++ l1 :: rest) ∧
    (EditJSONTarget scripted docJson 2 (⟨1⟩ : Doc) (⟨1⟩ : Doc)
        emptyWorld).world.launches.map handed =
      [some "\x7b\n    \"a\": 1\n\x7d", some "\x7bnot json"] ∧
    (EditJSONTarget scripted docJson 2 (⟨1⟩ : Doc) (⟨1⟩ : Doc)
        emptyWorld).world.launches.map returned =
      [some "\x7bnot json", some "\x7b\"a\":2\x7d"] := by
  have h := editor_input_chain scripted docJson (⟨1⟩ : Doc) (⟨1⟩ : Doc) emptyWorld
    "\x7b\n    \"a\": 1\n\x7d" (congrArg Except.ok (by decide))
  obtain ⟨h0, hrun, hnext, _⟩ := h
  have e1 : EditJSONTarget scripted docJson 1 (⟨1⟩ : Doc) (⟨1⟩ : Doc) emptyWorld =
      .running "\x7bnot json" (⟨1⟩ : Doc)
        (EditJSONTarget scripted docJson 1 (⟨1⟩ : Doc) (⟨1⟩ : Doc) emptyWorld).world := rfl
  obtain ⟨l, _, hl, hrest⟩ := hrun 0 _ _ _ h0 rfl
  obtain ⟨l0, hw1, hh0, hr0⟩ := hnext 0 _ _ _ _ _ _ h0 e1
  obtain ⟨l1, _, hl1, hrest1⟩ := hrun 1 _ _ _ e1 rfl
  exact ⟨⟨l, hl, hrest 1⟩, ⟨_, l0, e1, hw1, hh0, hr0, l1, hl1, hrest1 0⟩, by decide, by decide⟩

/-- C6: (1) if the loop of `EditJSONTarget` has reached a round whose call of
`Edit` returns an error, then `EditJSONTarget` returns that error, the target as
it stood before the round and the world exactly as `Edit` left it: nothing
printed, nothing acknowledged, at most the one failed editor run added.
(2) Every error `EditJSONTarget` returns is the error of `MarshalIndent` or the
error of the call of `Edit` in the last round. (3) A round whose `Edit`
succeeds and whose `Unmarshal` fails does not return: the loop goes on with the
edited text. -/
theorem edit_error_propagates {α τ : Type} (env : Env) (json : Json α τ) (i : α) (target : τ)
    (w : World) :
    (∀ fuel j t w0 text err w1 m,
      EditJSONTarget env json fuel i target w = .running j t w0 →
      Edit env j w0 = ((text, some err), w1) →
      EditJSONTarget env json (fuel + 1 + m) i target w = .returned (some err) t w1 ∧
        w1.stdout = w0.stdout ∧ w1.acks = w0.acks ∧
        w1.launches.length ≤ w0.launches.length + 1) ∧
    (∀ fuel err t1 w1,
      EditJSONTarget env json fuel i target w = .returned (some err) t1 w1 →
      (json.MarshalIndent i "" "    " = .error err ∧ t1 = target ∧ w1 = w) ∨
        ∃ n j0 w0 text, n < fuel ∧
          EditJSONTarget env json n i target w = .running j0 t1 w0 ∧
          Edit env j0 w0 = ((text, some err), w1)) ∧
    (∀ fuel j t w0 text w1 t1 derr,
      EditJSONTarget env json fuel i target w = .running j t w0 →
      Edit env j w0 = ((text, none), w1) →
      json.Unmarshal text t = (t1, some derr) →
      EditJSONTarget env json (fuel + 1) i target w =
        .running text t1 (ReadBytes (Printf (diagnostic derr) w1))) := by
  rcases hm : json.MarshalIndent i "" "    " with merr | j0
  · refine ⟨?_, ?_, ?_⟩
    · intro fuel j t w0 text err w1 m hrun _
      simp [EditJSONTarget, hm] at hrun
    · intro fuel err t1 w1 h
      simp only [EditJSONTarget, hm, Outcome.returned.injEq, Option.some.injEq] at h
      obtain ⟨rfl, rfl, rfl⟩ := h
      exact Or.inl ⟨rfl, rfl, rfl⟩
    · intro fuel j t w0 text w1 t1 derr hrun _ _
      simp [EditJSONTarget, hm] at hrun
  · have hE : ∀ fuel, EditJSONTarget env json fuel i target w =
        loop env json fuel j0 target w := by
      intro fuel
      simp only [EditJSONTarget, hm]
    refine ⟨?_, ?_, ?_⟩
    · intro fuel j t w0 text err w1 m hrun hedit
      rw [hE] at hrun
      refine ⟨?_, ?_, ?_, ?_⟩
      · rw [hE, Nat.add_assoc, loop_add env json fuel (1 + m) j0 j target t w w0 hrun,
          Nat.add_comm 1 m]
        exact loop_succ_err env json m j text t w0 w1 err hedit
      · have := (Edit_frame env j w0).2.1
        rw [hedit] at this
        exact this
      · have := (Edit_frame env j w0).2.2
        rw [hedit] at this
        exact this
      · rcases Edit_launches env j w0 with ⟨_, h⟩ | ⟨l, h, _⟩
        · rw [hedit] at h
          show w1.launches.length ≤ _
          rw [h]
          exact Nat.le_succ _
        · rw [hedit] at h
          show w1.launches.length ≤ _
          rw [h, List.length_append]
          exact Nat.le_refl _
    · intro fuel err t1 w1 h
      rw [hE] at h
      obtain ⟨n, j1, w0, text, hn, hrun, hedit⟩ :=
        loop_error_origin env json fuel j0 target t1 w w1 err h
      exact Or.inr ⟨n, j1, w0, text, hn, by rw [hE]; exact hrun, hedit⟩
    · intro fuel j t w0 text w1 t1 derr hrun hedit hu
      rw [hE] at hrun
      rw [hE, loop_add env json fuel 1 j0 j target t w w0 hrun,
        loop_succ_retry env json 0 j text t t1 w0 w1 derr hedit hu]
      rfl

/-- Witness of C6: with the `crashing` environment the first round ends in a
parse failure and goes on with the edited text; in the second round the editor
exits with status 1, and `EditJSONTarget` returns exactly that error. -/
theorem edit_error_propagates_witness :
    ∃ w0 w1,
      EditJSONTarget crashing docJson 1 (⟨1⟩ : Doc) (⟨1⟩ : Doc) emptyWorld =
        .running "\x7bnot json" (⟨1⟩ : Doc) w0 ∧
      Edit crashing "\x7bnot json" w0 = (("", some (.exit 1)), w1) ∧
      EditJSONTarget crashing docJson 2 (⟨1⟩ : Doc) (⟨1⟩ : Doc) emptyWorld =
        .returned (some (.exit 1)) (⟨1⟩ : Doc) w1 ∧
      w1.stdout = w0.stdout ∧ w1.acks = w0.acks ∧
      w1.launches.length ≤ w0.launches.length + 1 ∧
      ((docJson.MarshalIndent (⟨1⟩ : Doc) "" "    " = .error (.exit 1) ∧
          (⟨1⟩ : Doc) = ⟨1⟩ ∧ w1 = emptyWorld) ∨
        ∃ n j0 w2 text, n < 2 ∧
          EditJSONTarget crashing docJson n (⟨1⟩ : Doc) (⟨1⟩ : Doc) emptyWorld =
            .running j0 (⟨1⟩ : Doc) w2 ∧
          Edit crashing j0 w2 = ((text, some (.exit 1)), w1)) := by
  have h := edit_error_propagates crashing docJson (⟨1⟩ : Doc) (⟨1⟩ : Doc) emptyWorld
  have e0 : Edit crashing "\x7b\n    \"a\": 1\n\x7d" emptyWorld =
      (("\x7bnot json", none), (Edit crashing "\x7b\n    \"a\": 1\n\x7d" emptyWorld).2) :=
    Prod.ext (by decide) rfl
  have r1 := h.2.2 0 "\x7b\n    \"a\": 1\n\x7d" (⟨1⟩ : Doc) emptyWorld "\x7bnot json" _ (⟨1⟩ : Doc)
    (.sys "invalid character looking for beginning of object key string") rfl e0 (by decide)
  have e1 : Edit crashing "\x7bnot json"
        (ReadBytes (Printf
          (diagnostic (.sys "invalid character looking for beginning of object key string"))
          (Edit crashing "\x7b\n    \"a\": 1\n\x7d" emptyWorld).2)) =
      (("", some (.exit 1)),
        (Edit crashing "\x7bnot json"
          (ReadBytes (Printf
            (diagnostic (.sys "invalid character looking for beginning of object key string"))
            (Edit crashing "\x7b\n    \"a\": 1\n\x7d" emptyWorld).2))).2) :=
    Prod.ext (by decide) rfl
  have r2 := h.1 1 "\x7bnot json" (⟨1⟩ : Doc) _ "" (.exit 1) _ 0 r1 e1
  exact ⟨_, _, r1, e1, r2.1, r2.2.1, r2.2.2.1, r2.2.2.2, h.2.1 2 (.exit 1) (⟨1⟩ : Doc) _ r2.1⟩

/-- Witness of C7: an editor that exits at once without touching the file. -/
theorem Edit_unchanged_witness :
    (Edit idle "draft" emptyWorld).1 = ("draft", none) ∧
      (Edit idle "draft" emptyWorld).2.fs (filename idle emptyWorld.clock) = none :=
  Edit_unchanged idle "draft" emptyWorld _ rfl rfl rfl rfl rfl rfl

/-- Witness of C8: an editor that overwrites the file and exits with status 1. -/
theorem Edit_editor_failure_witness :
    (Edit crashing "draft" { fs := fun _ => none, clock := 1 }).1 = ("", some (.exit 1)) :=
  Edit_editor_failure crashing "draft" { fs := fun _ => none, clock := 1 } _ rfl rfl
    (Or.inr (by decide))

end editor
